import Mathlib

/-!
Verification of the ULB seat-reservation bot core (`src/core/`).

Strings are shallowly embedded as `List Char`; Python string operations
(`split`, `strip`, `lower`, substring `in`, `re.search` of fixed patterns)
are given executable Lean counterparts. HTTP, logging and the database are
out of scope: documents are modelled structurally as the values the
scraping layer extracts from them, and effectful loops are modelled as
functions that also return a trace of the externally visible events.
-/

namespace ULBSeat

/-- Convert a Lean string literal to the `List Char` representation. -/
def chs (s : String) : List Char := s.toList

/-- Decidable equality for `Except` results, used to evaluate the embedded
functions on concrete documents. -/
def exceptDecEq {ε α : Type} [DecidableEq ε] [DecidableEq α] :
    DecidableEq (Except ε α)
  | Except.ok a, Except.ok b =>
    if h : a = b then isTrue (h ▸ rfl) else isFalse (fun hc => h (Except.ok.inj hc))
  | Except.ok _, Except.error _ => isFalse (fun hc => Except.noConfusion hc)
  | Except.error _, Except.ok _ => isFalse (fun hc => Except.noConfusion hc)
  | Except.error e, Except.error e2 =>
    if h : e = e2 then isTrue (h ▸ rfl) else isFalse (fun hc => h (Except.error.inj hc))

instance {ε α : Type} [DecidableEq ε] [DecidableEq α] : DecidableEq (Except ε α) :=
  exceptDecEq

/-- Python `needle in haystack` on strings (substring containment). -/
def containsSub (needle : List Char) : List Char → Bool
  | [] => needle.isEmpty
  | h :: t => List.isPrefixOf needle (h :: t) || containsSub needle t

/-- Python `s.split(sep)` for a single-character separator `c`
(`"".split(",") = [""]`, separators at the ends produce empty fields). -/
def splitCh (c : Char) : List Char → List (List Char)
  | [] => [[]]
  | x :: xs =>
    if x = c then [] :: splitCh c xs
    else
      match splitCh c xs with
      | [] => [[x]]
      | h :: t => (x :: h) :: t

/-- Python `sep.join(parts)` for a single-character separator. -/
def joinCh (c : Char) : List (List Char) → List Char
  | [] => []
  | [x] => x
  | x :: xs => x ++ c :: joinCh c xs

/-- Python `s.strip()` (drop whitespace at both ends). -/
def stripL (s : List Char) : List Char :=
  ((s.dropWhile Char.isWhitespace).reverse.dropWhile Char.isWhitespace).reverse

/-- Python `s.lower()` (ASCII case folding). -/
def toLowerL (s : List Char) : List Char := s.map Char.toLower

/-! ## `src/core/scheduler.py` — the Schedule Translator -/

/-- `DAY_NAMES = ["mon", "tue", "wed", "thu", "fri", "sat", "sun"]`. -/
def DAY_NAMES : List (List Char) :=
  [chs "mon", chs "tue", chs "wed", chs "thu", chs "fri", chs "sat", chs "sun"]

/-- `DAY_INDEX` dictionary lookup: day name → weekday index (mon=0 … sun=6),
`none` when the name is not in the dictionary. -/
def dayIndex (d : List Char) : Option Nat :=
  if d = chs "mon" then some 0
  else if d = chs "tue" then some 1
  else if d = chs "wed" then some 2
  else if d = chs "thu" then some 3
  else if d = chs "fri" then some 4
  else if d = chs "sat" then some 5
  else if d = chs "sun" then some 6
  else none

/-- `(DAY_INDEX[day] - date_offset) % 7` — Python `%` on a positive modulus
agrees with `Int.emod`. -/
def triggerIdx (i : Nat) (dateOffset : Int) : Nat :=
  (((i : Int) - dateOffset) % 7).toNat

/-- The loop body of `_target_days_to_trigger_days`: strip and lowercase one
comma-separated field, skip it when it is not in `DAY_INDEX`, otherwise
produce `DAY_NAMES[(DAY_INDEX[day] - date_offset) % 7]`. -/
def triggerName (dateOffset : Int) (day : List Char) : Option (List Char) :=
  let day := toLowerL (stripL day)
  match dayIndex day with
  | none => none
  | some i => some (DAY_NAMES.getD (triggerIdx i dateOffset) [])

/-- `_target_days_to_trigger_days` from `src/core/scheduler.py`: split the
comma-separated day names, translate each via `triggerName`, and join the
results; an empty result falls back to the literal
`"mon,tue,wed,thu,fri"`. -/
def target_days_to_trigger_days (targetDays : List Char) (dateOffset : Int) : List Char :=
  let trigger := (splitCh ',' targetDays).filterMap (triggerName dateOffset)
  if trigger = [] then chs "mon,tue,wed,thu,fri" else joinCh ',' trigger

/-- Observation function for stating properties: the weekday indices parsed
from a comma-separated day string, exactly as the translator's loop parses
its input (order preserved, invalid names dropped). -/
def parseDays (s : List Char) : List Nat :=
  (splitCh ',' s).filterMap (fun day => dayIndex (toLowerL (stripL day)))

/-- The canonical abbreviation of weekday index `d` (`DAY_NAMES[d]`). -/
def dayAbbrev (d : Nat) : List Char := DAY_NAMES.getD d []

/-! ## `src/core/reservation.py` — Timeslot Resolver and Seat Selector -/

/-- One step of `re.search(r"(\d{2}:\d{2})–(\d{2}:\d{2})", ...)`: try to
match the time-range pattern at the head of the character list, returning the
two captured `HH:MM` groups. -/
def matchTimeAt (l : List Char) : Option (List Char × List Char) :=
  match l with
  | a :: b :: c :: d :: e :: f :: g :: h :: i :: j :: k :: _ =>
    if a.isDigit && b.isDigit && c == ':' && d.isDigit && e.isDigit &&
       f == '–' && g.isDigit && h.isDigit && i == ':' && j.isDigit && k.isDigit
    then some ([a, b, c, d, e], [g, h, i, j, k])
    else none
  | _ => none

/-- `re.search` of the time-range pattern: leftmost match in the text. -/
def searchTimeRange : List Char → Option (List Char × List Char)
  | [] => none
  | x :: rest =>
    match matchTimeAt (x :: rest) with
    | some r => some r
    | none => searchTimeRange rest

/-- One `<a href=...>` hyperlink of the slot-listing document together with
the values the scraping code extracts around it: whether the href carries a
`reservationtimeslot_id=` query parameter, whether the link sits inside a
`<tr>` row, the row's visible text, the parsed slot id, the text of the
nearest preceding `<h2>` section heading (empty when there is none), and the
href itself. -/
structure SlotRow where
  hrefHasSlotParam : Bool
  hasParentRow : Bool
  rowText : List Char
  slotId : Int
  sectionLabel : List Char
  href : List Char
deriving DecidableEq

/-- Entry of the `available_slots` list: `(slot_time, slot_id, section, href)`. -/
structure AvailSlot where
  time : List Char
  slotId : Int
  sectionLabel : List Char
  href : List Char
deriving DecidableEq

/-- Entry of the `matching_slots` list: `(slot_id, section, href)`; the
`free_count` component of the source tuple is only ever logged and is
omitted from the model. -/
structure MatchSlot where
  slotId : Int
  sectionLabel : List Char
  href : List Char
deriving DecidableEq

/-- The guards a row must pass before it is considered at all: the link
carries a slot id, it sits in a row, the row text contains the target date,
and the row's room kind (whether the nearest preceding section heading
contains the group-room keyword, case-insensitively) equals the requested
kind. -/
def rowPasses (kw targetDate : List Char) (groupRoom : Bool) (r : SlotRow) : Bool :=
  r.hrefHasSlotParam && r.hasParentRow && containsSub targetDate r.rowText &&
    (groupRoom == containsSub (toLowerL kw) (toLowerL r.sectionLabel))

/-- The contribution of one row to `available_slots`: present when the row
passes the guards and its text contains a parseable `HH:MM–HH:MM` range. -/
def availEntry (kw targetDate : List Char) (groupRoom : Bool) (r : SlotRow) :
    Option AvailSlot :=
  if rowPasses kw targetDate groupRoom r then
    match searchTimeRange r.rowText with
    | some (t1, t2) => some ⟨t1 ++ '-' :: t2, r.slotId, r.sectionLabel, r.href⟩
    | none => none
  else none

/-- The contribution of one row to `matching_slots`: present when the row
passes the guards and its text contains the exact
`start–end` (en-dash) target pattern. -/
def matchEntry (kw targetDate : List Char) (groupRoom : Bool) (pattern : List Char)
    (r : SlotRow) : Option MatchSlot :=
  if rowPasses kw targetDate groupRoom r && containsSub pattern r.rowText then
    some ⟨r.slotId, r.sectionLabel, r.href⟩
  else none

/-- The two distinct failure points of `find_timeslot` (both raised as
`BookingError` in the source, with distinct messages; `valueError` models the
unhandled unpacking error when `target_time.split("-")` does not yield
exactly two parts). `slotNotFound` carries the list whose time ranges and
sections the error message enumerates. -/
inductive FindErr
  | valueError
  | slotNotFound (targetTime targetDate : List Char) (available : List AvailSlot)
  | noSlotsForDate (targetDate : List Char)
deriving DecidableEq

/-- The preferred-section test: `pref_lower in s[1].lower()`. -/
def sectionHasPref (preferredSection : List Char) (s : MatchSlot) : Bool :=
  containsSub (toLowerL preferredSection) (toLowerL s.sectionLabel)

/-- `find_timeslot` from `src/core/reservation.py`, over the structurally
modelled slot-listing document: build `available_slots` and
`matching_slots`, return the first matching row's href (preferring the first
row whose section contains the preferred-section keyword when one was
supplied), otherwise fail with the enumerating error when some date-matching
row with a parseable time exists, and with the distinct no-slots error when
none does. -/
def find_timeslot (kw : List Char) (doc : List SlotRow) (targetDate targetTime : List Char)
    (groupRoom : Bool) (preferredSection : List Char) : Except FindErr (List Char) :=
  match splitCh '-' targetTime with
  | [startT, endT] =>
    let pattern := startT ++ '–' :: endT
    let available := doc.filterMap (availEntry kw targetDate groupRoom)
    let matching := doc.filterMap (matchEntry kw targetDate groupRoom pattern)
    match matching with
    | m :: _ =>
      if preferredSection ≠ [] then
        match matching.filter (sectionHasPref preferredSection) with
        | p :: _ => Except.ok p.href
        | [] => Except.ok m.href
      else Except.ok m.href
    | [] =>
      match available with
      | _ :: _ => Except.error (FindErr.slotNotFound targetTime targetDate available)
      | [] => Except.error (FindErr.noSlotsForDate targetDate)
  | _ => Except.error FindErr.valueError

/-- One seat hyperlink of the slot-detail document: href (carrying
`seat_id=`), the parsed seat id, and the description text assembled from the
link text plus the trailing sibling annotation. -/
structure SeatLink where
  href : List Char
  seatId : Int
  desc : List Char
deriving DecidableEq

/-- The slot-detail document: its raw response text and the seat links the
soup scan extracts from it. -/
structure SlotDetailDoc where
  text : List Char
  seatLinks : List SeatLink
deriving DecidableEq

/-- The two failure points of `select_seat` (both `BookingError` in the
source, with distinct messages). -/
inductive SelectErr
  | slotUnavailable
  | noSeats
deriving DecidableEq

/-- Try the three fixed German nouns of the seat-number pattern
`(?:Platz|Kabine|Raum)\s+(\d+)` as prefixes, in the regex's alternation
order, returning the remainder after the noun. -/
def nounRest (l : List Char) : Option (List Char) :=
  if List.isPrefixOf (chs "Platz") l then some (l.drop 5)
  else if List.isPrefixOf (chs "Kabine") l then some (l.drop 6)
  else if List.isPrefixOf (chs "Raum") l then some (l.drop 4)
  else none

/-- Python `int` of a non-empty digit string. -/
def digitsToNat (ds : List Char) : Nat :=
  ds.foldl (fun acc c => acc * 10 + (c.toNat - Char.toNat '0')) 0

/-- Match `(?:Platz|Kabine|Raum)\s+(\d+)` at the head of the list: a noun,
at least one whitespace character, then the maximal digit run. -/
def matchNounNumAt (l : List Char) : Option Nat :=
  match nounRest l with
  | none => none
  | some rest =>
    let ws := rest.takeWhile Char.isWhitespace
    if ws.isEmpty then none
    else
      let ds := (rest.drop ws.length).takeWhile Char.isDigit
      if ds.isEmpty then none else some (digitsToNat ds)

/-- `re.search` of the seat-number pattern over a description: leftmost
position where the full pattern matches. -/
def parseSeatNumber : List Char → Option Nat
  | [] => none
  | x :: rest =>
    match matchNounNumAt (x :: rest) with
    | some n => some n
    | none => parseSeatNumber rest

/-- Lookup in the `seat_by_number` dictionary built by the source loop:
later insertions overwrite earlier ones, so the value found for `n` is the
last link whose description parses to `n`. -/
def seatByNumber (links : List SeatLink) (n : Nat) : Option SeatLink :=
  links.foldl (fun acc l =>
    match parseSeatNumber l.desc with
    | some m => if m = n then some l else acc
    | none => acc) none

/-- The preference scan: first preferred number present in `seat_by_number`,
returning its dictionary entry. -/
def firstPreferred (links : List SeatLink) : List Nat → Option SeatLink
  | [] => none
  | p :: ps =>
    match seatByNumber links p with
    | some l => some l
    | none => firstPreferred links ps

/-- `select_seat` from `src/core/reservation.py`: fail with the unavailable
error when the response text contains both `"Reservierung möglich?"` and
`"Nein"`; fail with the no-seats error when no seat links were found;
otherwise return the preferred seat when some preferred number is present,
falling back to the first seat link in document order. -/
def select_seat (preferredList : List Nat) (doc : SlotDetailDoc) :
    Except SelectErr (List Char × List Char) :=
  if containsSub (chs "Reservierung möglich?") doc.text &&
     containsSub (chs "Nein") doc.text then
    Except.error SelectErr.slotUnavailable
  else
    match doc.seatLinks with
    | [] => Except.error SelectErr.noSeats
    | l :: _ =>
      match firstPreferred doc.seatLinks preferredList with
      | some lp => Except.ok (lp.href, lp.desc)
      | none => Except.ok (l.href, l.desc)

/-! ## `src/core/booking.py` — the Retry Orchestrator -/

/-- The externally visible events of `execute_booking`: the one-time login
and captcha phases, the start of booking attempt `n`, and the inter-attempt
`time.sleep(RETRY_DELAY)`. -/
inductive BookEvent
  | loginEv
  | captchaEv
  | attemptEv (n : Nat)
  | sleepEv
deriving DecidableEq

/-- The `for attempt in range(1, RETRIES + 1)` loop of `execute_booking`:
`f n` is the outcome of the n-th Resolver→Selector→Finalizer attempt (an
exception or a result). A success returns immediately; a failure is stored
as `last_error` and, when attempts remain, is followed by a sleep; after the
loop the stored `last_error` is re-raised unchanged. -/
def attemptsLoop {E R : Type} (f : Nat → Except E R) :
    Nat → Nat → Option E → List BookEvent × Except (Option E) R
  | 0, _, last => ([], Except.error last)
  | rem + 1, n, _ =>
    match f n with
    | Except.ok r => ([BookEvent.attemptEv n], Except.ok r)
    | Except.error e =>
      if rem = 0 then ([BookEvent.attemptEv n], Except.error (some e))
      else
        let rest := attemptsLoop f rem (n + 1) (some e)
        (BookEvent.attemptEv n :: BookEvent.sleepEv :: rest.1, rest.2)

/-- `execute_booking` from `src/core/booking.py`: login and captcha handling
run once, before the retry loop; then the attempts loop runs with attempt
numbers starting at 1. -/
def execute_booking {E R : Type} (f : Nat → Except E R) (retries : Nat) :
    List BookEvent × Except (Option E) R :=
  let run := attemptsLoop f retries 1 none
  (BookEvent.loginEv :: BookEvent.captchaEv :: run.1, run.2)

/-! ## `src/core/auth.py` — the Authenticator's captcha loop -/

/-- A portal page as the captcha loop observes it: the base64 captcha-image
payload when the image marker regex matches, the "Neue Platzreservierung
starten" marker and its link, the "Schnellübersicht" marker, the
`sform_token` value, the "Erfolg" marker, and the `ym-success` continue
link. -/
structure Page where
  captchaImage : Option (List Char)
  hasStartText : Bool
  startLink : Option (List Char)
  hasQuickOverview : Bool
  sformToken : Option (List Char)
  hasErfolg : Bool
  weiterLink : Option (List Char)

/-- The captcha loop's collaborators: the OCR solver, the page returned by
the k-th re-fetch of `BASE_URL`, the page behind a followed link, and the
response page of a confirmation-form submission (token, captcha text). -/
structure AuthEnv where
  solve : List Char → List Char
  getBase : Nat → Page
  getLink : List Char → Page
  submit : List Char → List Char → Page

/-- The externally visible events of the captcha loop. -/
inductive AuthEvent
  | fetchBase
  | followLink (href : List Char)
  | submitForm (captcha : List Char)
deriving DecidableEq

/-- The failure points of `handle_captcha` (all `BookingError` in the
source, with distinct messages). -/
inductive CaptchaErr
  | captchaNotFound
  | tokenNotFound
  | exhausted
deriving DecidableEq

/-- The body of `handle_captcha`'s `for attempt in range(1, MAX_CAPTCHA_RETRIES + 1)`
loop, one constructor case per branch of the source: `rem` is the number of
attempts left, `fc` counts the `session.get(BASE_URL)` re-fetches performed
so far (indexing into `env.getBase`). Every `continue` of the source loop
recurses with `rem` decremented. -/
def captchaLoop (env : AuthEnv) : Page → Nat → Nat → List AuthEvent × Except CaptchaErr Unit
  | _, _, 0 => ([], Except.error CaptchaErr.exhausted)
  | html, fc, rem + 1 =>
    match html.captchaImage with
    | none =>
      if html.hasStartText then
        match html.startLink with
        | some l =>
          let r := captchaLoop env (env.getLink l) fc rem
          (AuthEvent.followLink l :: r.1, r.2)
        | none => ([], Except.ok ())
      else if html.hasQuickOverview then ([], Except.ok ())
      else ([], Except.error CaptchaErr.captchaNotFound)
    | some img =>
      let captchaText := env.solve img
      if captchaText.length < 4 then
        let r := captchaLoop env (env.getBase fc) (fc + 1) rem
        (AuthEvent.fetchBase :: r.1, r.2)
      else
        match html.sformToken with
        | none => ([], Except.error CaptchaErr.tokenNotFound)
        | some tok =>
          let resp := env.submit tok captchaText
          if resp.hasErfolg then
            match resp.weiterLink with
            | some w => ([AuthEvent.submitForm captchaText, AuthEvent.followLink w], Except.ok ())
            | none => ([AuthEvent.submitForm captchaText], Except.ok ())
          else if resp.hasStartText then
            match resp.startLink with
            | some l =>
              let r := captchaLoop env (env.getLink l) fc rem
              (AuthEvent.submitForm captchaText :: AuthEvent.followLink l :: r.1, r.2)
            | none => ([AuthEvent.submitForm captchaText], Except.ok ())
          else if resp.hasQuickOverview then ([AuthEvent.submitForm captchaText], Except.ok ())
          else
            let r := captchaLoop env (env.getBase fc) (fc + 1) rem
            (AuthEvent.submitForm captchaText :: AuthEvent.fetchBase :: r.1, r.2)

/-- `handle_captcha` from `src/core/auth.py`: run the loop on the post-login
page with the full retry budget. -/
def handle_captcha (env : AuthEnv) (maxRetries : Nat) (html : Page) :
    List AuthEvent × Except CaptchaErr Unit :=
  captchaLoop env html 0 maxRetries

/-! ### Lemmas about the string utilities -/

lemma splitCh_no_sep {c : Char} {a : List Char} (h : c ∉ a) : splitCh c a = [a] := by
  induction a with
  | nil => rfl
  | cons x xs ih =>
    have hx : ¬x = c := by rintro rfl; exact h (List.mem_cons_self _ _)
    have hxs : c ∉ xs := fun hm => h (List.mem_cons_of_mem _ hm)
    simp [splitCh, hx, ih hxs]

lemma splitCh_append {c : Char} {a : List Char} (rest : List Char) (h : c ∉ a) :
    splitCh c (a ++ c :: rest) = a :: splitCh c rest := by
  induction a with
  | nil => simp [splitCh]
  | cons x xs ih =>
    have hx : ¬x = c := by rintro rfl; exact h (List.mem_cons_self _ _)
    have hxs : c ∉ xs := fun hm => h (List.mem_cons_of_mem _ hm)
    simp [splitCh, hx, ih hxs]

lemma split_join {c : Char} {names : List (List Char)} (hne : names ≠ [])
    (h : ∀ n ∈ names, c ∉ n) : splitCh c (joinCh c names) = names := by
  induction names with
  | nil => cases hne rfl
  | cons n rest ih =>
    cases rest with
    | nil => simpa [joinCh] using splitCh_no_sep (h n (by simp))
    | cons m rest2 =>
      have h1 : c ∉ n := h n (by simp)
      have h2 : ∀ x ∈ m :: rest2, c ∉ x := fun x hx => h x (by simp [hx])
      calc splitCh c (joinCh c (n :: m :: rest2))
          = splitCh c (n ++ c :: joinCh c (m :: rest2)) := by simp [joinCh]
        _ = n :: splitCh c (joinCh c (m :: rest2)) := splitCh_append _ h1
        _ = n :: (m :: rest2) := by rw [ih (by simp) h2]

/-! ### Lemmas about the Schedule Translator -/

lemma dayAbbrev_valid {d : Nat} (h : d < 7) :
    stripL (dayAbbrev d) = dayAbbrev d ∧ toLowerL (dayAbbrev d) = dayAbbrev d ∧
    dayIndex (dayAbbrev d) = some d ∧ ',' ∉ dayAbbrev d ∧ dayAbbrev d ≠ [] := by
  interval_cases d <;> exact ⟨by decide, by decide, by decide, by decide, by decide⟩

lemma triggerIdx_lt (d : Nat) (off : Int) : triggerIdx d off < 7 := by
  unfold triggerIdx; omega

lemma triggerIdx_roundtrip {d : Nat} (off : Int) (h : d < 7) :
    triggerIdx (triggerIdx d off) (-off) = d := by
  unfold triggerIdx; omega

lemma triggerName_dayAbbrev {d : Nat} (h : d < 7) (off : Int) :
    triggerName off (dayAbbrev d) = some (dayAbbrev (triggerIdx d off)) := by
  obtain ⟨h1, h2, h3, -, -⟩ := dayAbbrev_valid h
  show (match dayIndex (toLowerL (stripL (dayAbbrev d))) with
        | none => none
        | some i => some (DAY_NAMES.getD (triggerIdx i off) [])) =
       some (dayAbbrev (triggerIdx d off))
  rw [h1, h2, h3]
  rfl

lemma trigger_map (l : List Nat) (off : Int) (h : ∀ d ∈ l, d < 7) :
    (l.map dayAbbrev).filterMap (triggerName off) =
    l.map (fun d => dayAbbrev (triggerIdx d off)) := by
  induction l with
  | nil => rfl
  | cons d rest ih =>
    simp only [List.map_cons, List.filterMap_cons,
      triggerName_dayAbbrev (h d (List.mem_cons_self _ _)) off]
    rw [ih (fun x hx => h x (List.mem_cons_of_mem _ hx))]

lemma dayAbbrev_comma_free {l : List Nat} (h : ∀ d ∈ l, d < 7) :
    ∀ n ∈ l.map dayAbbrev, ',' ∉ n := by
  intro n hn
  obtain ⟨d, hd, rfl⟩ := List.mem_map.mp hn
  exact (dayAbbrev_valid (h d hd)).2.2.2.1

lemma translate_join (l : List Nat) (off : Int) (h : ∀ d ∈ l, d < 7) (hne : l ≠ []) :
    target_days_to_trigger_days (joinCh ',' (l.map dayAbbrev)) off =
    joinCh ',' (l.map (fun d => dayAbbrev (triggerIdx d off))) := by
  have hmapne : l.map dayAbbrev ≠ [] := by simpa using hne
  unfold target_days_to_trigger_days
  rw [split_join hmapne (dayAbbrev_comma_free h), trigger_map l off h,
    if_neg (by simpa using hne)]

lemma parse_map (l : List Nat) (h : ∀ d ∈ l, d < 7) :
    (l.map dayAbbrev).filterMap (fun day => dayIndex (toLowerL (stripL day))) = l := by
  induction l with
  | nil => rfl
  | cons d rest ih =>
    obtain ⟨h1, h2, h3, -, -⟩ := dayAbbrev_valid (h d (List.mem_cons_self _ _))
    simp only [List.map_cons, List.filterMap_cons, h1, h2, h3]
    rw [ih (fun x hx => h x (List.mem_cons_of_mem _ hx))]

lemma parse_join (l : List Nat) (h : ∀ d ∈ l, d < 7) (hne : l ≠ []) :
    parseDays (joinCh ',' (l.map dayAbbrev)) = l := by
  have hmapne : l.map dayAbbrev ≠ [] := by simpa using hne
  unfold parseDays
  rw [split_join hmapne (dayAbbrev_comma_free h), parse_map l h]

lemma map_triggerIdx_roundtrip (l : List Nat) (off : Int) (h : ∀ d ∈ l, d < 7) :
    (l.map (fun d => triggerIdx d off)).map (fun d => triggerIdx d (-off)) = l := by
  induction l with
  | nil => rfl
  | cons d rest ih =>
    simp only [List.map_cons]
    rw [triggerIdx_roundtrip off (h d (List.mem_cons_self _ _)),
      ih (fun x hx => h x (List.mem_cons_of_mem _ hx))]

lemma shifted_valid (l : List Nat) (off : Int) :
    ∀ d ∈ l.map (fun d => triggerIdx d off), d < 7 := by
  intro d hd
  obtain ⟨x, -, rfl⟩ := List.mem_map.mp hd
  exact triggerIdx_lt x off

/-! ### Claim theorems for the Schedule Translator (C1, C6, C7) -/

/-- C1 (amended: restricted to non-empty weekday sets): for every non-empty
list of valid weekday indices and every offset in 0..6, the Schedule
Translator maps each desired weekday index `d` to trigger index
`(d - offset) mod 7`, and re-applying the translator with the offset negated
recovers the original weekday list (hence the original weekday set). -/
theorem c1_roundtrip_amended (l : List Nat) (off : Int)
    (hvalid : ∀ d ∈ l, d < 7) (hne : l ≠ []) (_hoff : 0 ≤ off ∧ off ≤ 6) :
    parseDays (target_days_to_trigger_days (joinCh ',' (l.map dayAbbrev)) off) =
      l.map (fun d => triggerIdx d off) ∧
    parseDays (target_days_to_trigger_days
      (target_days_to_trigger_days (joinCh ',' (l.map dayAbbrev)) off) (-off)) = l := by
  have hl' := shifted_valid l off
  have hne' : l.map (fun d => triggerIdx d off) ≠ [] := by simpa using hne
  have hmm : joinCh ',' (l.map (fun d => dayAbbrev (triggerIdx d off))) =
      joinCh ',' ((l.map (fun d => triggerIdx d off)).map dayAbbrev) := by
    rw [List.map_map]; rfl
  constructor
  · rw [translate_join l off hvalid hne, hmm, parse_join _ hl' hne']
  · rw [translate_join l off hvalid hne, hmm,
      translate_join _ (-off) hl' hne',
      show joinCh ',' ((l.map (fun d => triggerIdx d off)).map
          (fun d => dayAbbrev (triggerIdx d (-off)))) =
        joinCh ',' (((l.map (fun d => triggerIdx d off)).map
          (fun d => triggerIdx d (-off))).map dayAbbrev) from by
        simp [List.map_map, Function.comp_def],
      parse_join _ (shifted_valid _ (-off)) (by simpa using hne),
      map_triggerIdx_roundtrip l off hvalid]

/-- C1 witness: instantiation at the weekday set {Mon, Thu} and offset 3. -/
theorem c1_witness :
    parseDays (target_days_to_trigger_days (joinCh ',' ([0, 3].map dayAbbrev)) 3) =
      [0, 3].map (fun d => triggerIdx d 3) ∧
    parseDays (target_days_to_trigger_days
      (target_days_to_trigger_days (joinCh ',' ([0, 3].map dayAbbrev)) 3) (-3)) = [0, 3] :=
  c1_roundtrip_amended [0, 3] 3 (by decide) (by decide) (by decide)

/-- C1 counterexample: the claim as stated quantifies over every set of valid
weekday names, including the empty set. For the empty set (rendered as the
empty input string) the translator falls back to the default weekday string,
so re-applying it with the negated offset yields the Mon–Fri set, not the
original empty set: the round-trip law fails there. -/
theorem c1_counterexample :
    parseDays (joinCh ',' (([] : List Nat).map dayAbbrev)) = [] ∧
    parseDays (target_days_to_trigger_days
      (target_days_to_trigger_days (joinCh ',' (([] : List Nat).map dayAbbrev)) 0) (-0)) =
      [0, 1, 2, 3, 4] := by decide

/-- C6: the claim (and the spec's stated invariant) says the translator must
fail when every supplied day name is invalid; the code instead silently
returns the default `"mon,tue,wed,thu,fri"`. This theorem evaluates the code
at the failing input `target_days = "xyz"`, `date_offset = 2`: the translator
is a total function that returns the default weekday string rather than
failing. -/
theorem c6_silent_default :
    target_days_to_trigger_days (chs "xyz") 2 = chs "mon,tue,wed,thu,fri" := by decide

/-- C7 counterexample: the claim says the output is in the fixed enumeration
order Mon..Sun regardless of input order, but for input `"tue,mon"` with
offset 0 the code emits `"tue,mon"` (input order), not `"mon,tue"`. -/
theorem c7_counterexample :
    target_days_to_trigger_days (chs "tue,mon") 0 = chs "tue,mon" ∧
    target_days_to_trigger_days (chs "tue,mon") 0 ≠ chs "mon,tue" := by decide

/-- C7 (amended): for every non-empty list of valid weekday indices, the
translator's output is the comma-join of the shifted weekday abbreviations in
the order the names appeared in the input — not sorted into the fixed Mon..Sun
enumeration order. -/
theorem c7_input_order (l : List Nat) (off : Int)
    (hvalid : ∀ d ∈ l, d < 7) (hne : l ≠ []) :
    target_days_to_trigger_days (joinCh ',' (l.map dayAbbrev)) off =
      joinCh ',' (l.map (fun d => dayAbbrev (triggerIdx d off))) :=
  translate_join l off hvalid hne

/-- C7 witness: instantiation at input `"tue,mon"` (indices [1, 0]), offset 2. -/
theorem c7_witness :
    target_days_to_trigger_days (joinCh ',' ([1, 0].map dayAbbrev)) 2 =
      joinCh ',' ([1, 0].map (fun d => dayAbbrev (triggerIdx d 2))) :=
  c7_input_order [1, 0] 2 (by decide) (by decide)

/-! ### Lemmas about the Timeslot Resolver -/

lemma filterMap_filter_eq {α β : Type} (p : α → Bool) (f : α → Option β)
    (h : ∀ a, p a = false → f a = none) (l : List α) :
    (l.filter p).filterMap f = l.filterMap f := by
  induction l with
  | nil => rfl
  | cons x xs ih =>
    cases hp : p x with
    | true => simp [List.filter_cons, hp, List.filterMap_cons, ih]
    | false => simp [List.filter_cons, hp, List.filterMap_cons, h x hp, ih]

lemma availEntry_none_of_kind {kw targetDate : List Char} {groupRoom : Bool} {r : SlotRow}
    (h : (groupRoom == containsSub (toLowerL kw) (toLowerL r.sectionLabel)) = false) :
    availEntry kw targetDate groupRoom r = none := by
  simp [availEntry, rowPasses, h]

lemma matchEntry_none_of_kind {kw targetDate pattern : List Char} {groupRoom : Bool}
    {r : SlotRow}
    (h : (groupRoom == containsSub (toLowerL kw) (toLowerL r.sectionLabel)) = false) :
    matchEntry kw targetDate groupRoom pattern r = none := by
  simp [matchEntry, rowPasses, h]

lemma find_timeslot_eq (kw : List Char) (doc : List SlotRow)
    (targetDate startT endT preferredSection : List Char) (groupRoom : Bool)
    (hs : '-' ∉ startT) (he : '-' ∉ endT) :
    find_timeslot kw doc targetDate (startT ++ '-' :: endT) groupRoom preferredSection =
      (match doc.filterMap (matchEntry kw targetDate groupRoom (startT ++ '–' :: endT)) with
       | m :: _ =>
         if preferredSection ≠ [] then
           match (doc.filterMap (matchEntry kw targetDate groupRoom
               (startT ++ '–' :: endT))).filter (sectionHasPref preferredSection) with
           | p :: _ => Except.ok p.href
           | [] => Except.ok m.href
         else Except.ok m.href
       | [] =>
         match doc.filterMap (availEntry kw targetDate groupRoom) with
         | _ :: _ => Except.error (FindErr.slotNotFound (startT ++ '-' :: endT) targetDate
             (doc.filterMap (availEntry kw targetDate groupRoom)))
         | [] => Except.error (FindErr.noSlotsForDate targetDate)) := by
  unfold find_timeslot
  rw [splitCh_append endT hs, splitCh_no_sep he]

lemma find_timeslot_of_matching (kw : List Char) (doc : List SlotRow)
    (targetDate startT endT preferredSection : List Char) (groupRoom : Bool)
    (hs : '-' ∉ startT) (he : '-' ∉ endT) (m : MatchSlot) (ms : List MatchSlot)
    (hM : doc.filterMap (matchEntry kw targetDate groupRoom (startT ++ '–' :: endT)) =
      m :: ms) :
    find_timeslot kw doc targetDate (startT ++ '-' :: endT) groupRoom preferredSection =
      (if preferredSection ≠ [] then
        match (m :: ms).filter (sectionHasPref preferredSection) with
        | p :: _ => Except.ok p.href
        | [] => Except.ok m.href
      else Except.ok m.href) := by
  rw [find_timeslot_eq kw doc targetDate startT endT preferredSection groupRoom hs he, hM]

lemma find_timeslot_of_avail (kw : List Char) (doc : List SlotRow)
    (targetDate startT endT preferredSection : List Char) (groupRoom : Bool)
    (hs : '-' ∉ startT) (he : '-' ∉ endT) (a : AvailSlot) (rest : List AvailSlot)
    (hM : doc.filterMap (matchEntry kw targetDate groupRoom (startT ++ '–' :: endT)) = [])
    (hA : doc.filterMap (availEntry kw targetDate groupRoom) = a :: rest) :
    find_timeslot kw doc targetDate (startT ++ '-' :: endT) groupRoom preferredSection =
      Except.error (FindErr.slotNotFound (startT ++ '-' :: endT) targetDate (a :: rest)) := by
  rw [find_timeslot_eq kw doc targetDate startT endT preferredSection groupRoom hs he, hM,
    hA]

lemma find_timeslot_of_none (kw : List Char) (doc : List SlotRow)
    (targetDate startT endT preferredSection : List Char) (groupRoom : Bool)
    (hs : '-' ∉ startT) (he : '-' ∉ endT)
    (hM : doc.filterMap (matchEntry kw targetDate groupRoom (startT ++ '–' :: endT)) = [])
    (hA : doc.filterMap (availEntry kw targetDate groupRoom) = []) :
    find_timeslot kw doc targetDate (startT ++ '-' :: endT) groupRoom preferredSection =
      Except.error (FindErr.noSlotsForDate targetDate) := by
  rw [find_timeslot_eq kw doc targetDate startT endT preferredSection groupRoom hs he, hM,
    hA]

/-! ### Claim theorems for the Timeslot Resolver (C3, C5) -/

/-- C3 (amended: the triggering condition requires a date-matching row whose
text also contains a parseable `HH:MM–HH:MM` range): when no candidate row
matches the requested time pattern but at least one date-and-kind-matching
row carries a parseable time range, `find_timeslot` fails with the error
that enumerates exactly those rows' time ranges and section labels (the
`available_slots` list, in document order); when no date-and-kind-matching
row carries a parseable time range, it fails with the distinct
no-slots-for-date error, which enumerates nothing. -/
theorem c3_resolver_failure_modes (kw : List Char) (doc : List SlotRow)
    (targetDate startT endT preferredSection : List Char) (groupRoom : Bool)
    (hs : '-' ∉ startT) (he : '-' ∉ endT) :
    ((∀ r ∈ doc, matchEntry kw targetDate groupRoom (startT ++ '–' :: endT) r = none) →
      (∃ r ∈ doc, (availEntry kw targetDate groupRoom r).isSome) →
      find_timeslot kw doc targetDate (startT ++ '-' :: endT) groupRoom preferredSection =
        Except.error (FindErr.slotNotFound (startT ++ '-' :: endT) targetDate
          (doc.filterMap (availEntry kw targetDate groupRoom)))) ∧
    ((∀ r ∈ doc, matchEntry kw targetDate groupRoom (startT ++ '–' :: endT) r = none) →
      (∀ r ∈ doc, availEntry kw targetDate groupRoom r = none) →
      find_timeslot kw doc targetDate (startT ++ '-' :: endT) groupRoom preferredSection =
        Except.error (FindErr.noSlotsForDate targetDate)) ∧
    (∀ tt td av, FindErr.slotNotFound tt td av ≠ FindErr.noSlotsForDate td) := by
  refine ⟨?_, ?_, ?_⟩
  · intro hM hA
    cases hAe : doc.filterMap (availEntry kw targetDate groupRoom) with
    | nil =>
      obtain ⟨r, hr, hsome⟩ := hA
      rw [List.filterMap_eq_nil_iff.mp hAe r hr] at hsome
      cases hsome
    | cons a rest =>
      rw [find_timeslot_of_avail kw doc targetDate startT endT preferredSection groupRoom
        hs he a rest (List.filterMap_eq_nil_iff.mpr hM) hAe]
  · intro hM hA
    exact find_timeslot_of_none kw doc targetDate startT endT preferredSection groupRoom
      hs he (List.filterMap_eq_nil_iff.mpr hM) (List.filterMap_eq_nil_iff.mpr hA)
  · intro tt td av h
    exact FindErr.noConfusion h

/-- C3 witness: a document with one individual-seat row on the requested
date at 08:00–12:00, requested time 14:00–18:00: the resolver fails with the
enumerating error carrying exactly that row's time range and section. -/
theorem c3_witness :
    find_timeslot (chs "Gruppenraum")
      [⟨true, true, chs "10.03.2026 08:00–12:00 frei", 7, chs "Lesesaal", chs "hrefA"⟩]
      (chs "10.03.2026") (chs "14:00" ++ '-' :: chs "18:00") false [] =
      Except.error (FindErr.slotNotFound (chs "14:00" ++ '-' :: chs "18:00")
        (chs "10.03.2026")
        [⟨chs "08:00-12:00", 7, chs "Lesesaal", chs "hrefA"⟩]) :=
  (c3_resolver_failure_modes (chs "Gruppenraum")
    [⟨true, true, chs "10.03.2026 08:00–12:00 frei", 7, chs "Lesesaal", chs "hrefA"⟩]
    (chs "10.03.2026") (chs "14:00") (chs "18:00") [] false
    (by decide) (by decide)).1 (by decide) (by decide)

/-- C3 counterexample: the claim as stated promises the enumerating error
whenever some row matches the requested date and room kind but none matches
date and time. A row that matches date and kind but whose text contains no
parseable `HH:MM–HH:MM` range refutes it: the code answers with the
no-slots-for-date error instead. -/
theorem c3_counterexample :
    rowPasses (chs "Gruppenraum") (chs "10.03.2026") false
      ⟨true, true, chs "10.03.2026 ganztags frei", 5, chs "Lesesaal", chs "hrefB"⟩ = true ∧
    containsSub (chs "14:00" ++ '–' :: chs "18:00")
      (chs "10.03.2026 ganztags frei") = false ∧
    find_timeslot (chs "Gruppenraum")
      [⟨true, true, chs "10.03.2026 ganztags frei", 5, chs "Lesesaal", chs "hrefB"⟩]
      (chs "10.03.2026") (chs "14:00" ++ '-' :: chs "18:00") false [] =
      Except.error (FindErr.noSlotsForDate (chs "10.03.2026")) := by decide

/-- C5: the Timeslot Resolver's room-kind exclusion and selection policy.
Part 1: rows whose room kind differs from the requested kind never influence
the result — filtering them out of the document leaves the result unchanged.
Part 2: among the date-and-time-matching rows (`matching_slots`, in document
order), when a preferred-section keyword is supplied and some matching row's
section label contains it case-insensitively, the first such row's link is
returned; when no keyword is supplied, or no section matches it, the first
matching row's link is returned. -/
theorem c5_room_kind_and_selection (kw : List Char) (doc : List SlotRow)
    (targetDate startT endT preferredSection : List Char) (groupRoom : Bool)
    (hs : '-' ∉ startT) (he : '-' ∉ endT) :
    find_timeslot kw doc targetDate (startT ++ '-' :: endT) groupRoom preferredSection =
      find_timeslot kw (doc.filter (fun r =>
          groupRoom == containsSub (toLowerL kw) (toLowerL r.sectionLabel)))
        targetDate (startT ++ '-' :: endT) groupRoom preferredSection ∧
    (∀ m ms, doc.filterMap (matchEntry kw targetDate groupRoom (startT ++ '–' :: endT)) =
        m :: ms →
      ((preferredSection ≠ [] → ∀ p ps,
          (m :: ms).filter (sectionHasPref preferredSection) = p :: ps →
          find_timeslot kw doc targetDate (startT ++ '-' :: endT) groupRoom
            preferredSection = Except.ok p.href) ∧
       ((preferredSection = [] ∨ (m :: ms).filter (sectionHasPref preferredSection) = []) →
          find_timeslot kw doc targetDate (startT ++ '-' :: endT) groupRoom
            preferredSection = Except.ok m.href))) := by
  constructor
  · rw [find_timeslot_eq kw doc targetDate startT endT preferredSection groupRoom hs he,
      find_timeslot_eq kw _ targetDate startT endT preferredSection groupRoom hs he,
      filterMap_filter_eq _ _ (fun r hr => availEntry_none_of_kind hr) doc,
      filterMap_filter_eq _ _ (fun r hr => matchEntry_none_of_kind hr) doc]
  · intro m ms hM
    have hbase := find_timeslot_of_matching kw doc targetDate startT endT preferredSection
      groupRoom hs he m ms hM
    constructor
    · intro hpe p ps hps
      rw [hbase, if_pos hpe, hps]
    · intro hcase
      rcases hcase with hpe | hflt
      · rw [hbase, if_neg (by simp [hpe])]
      · by_cases hpe : preferredSection = []
        · rw [hbase, if_neg (by simp [hpe])]
        · rw [hbase, if_pos hpe, hflt]

/-- C5 witness: a document with a group-room row (excluded: kind mismatch)
followed by two individual rows matching date and time; with preferred
section `"haupt"` the second matching row (Hauptlesesaal) is returned. -/
theorem c5_witness :
    find_timeslot (chs "Gruppenraum")
      [⟨true, true, chs "10.03.2026 14:00–18:00", 1, chs "Gruppenraum West", chs "hG"⟩,
       ⟨true, true, chs "10.03.2026 14:00–18:00", 2, chs "Lesesaal", chs "hL"⟩,
       ⟨true, true, chs "10.03.2026 14:00–18:00", 3, chs "Hauptlesesaal", chs "hH"⟩]
      (chs "10.03.2026") (chs "14:00" ++ '-' :: chs "18:00") false (chs "haupt") =
      Except.ok (chs "hH") :=
  (((c5_room_kind_and_selection (chs "Gruppenraum")
      [⟨true, true, chs "10.03.2026 14:00–18:00", 1, chs "Gruppenraum West", chs "hG"⟩,
       ⟨true, true, chs "10.03.2026 14:00–18:00", 2, chs "Lesesaal", chs "hL"⟩,
       ⟨true, true, chs "10.03.2026 14:00–18:00", 3, chs "Hauptlesesaal", chs "hH"⟩]
      (chs "10.03.2026") (chs "14:00") (chs "18:00") (chs "haupt") false
      (by decide) (by decide)).2
    ⟨2, chs "Lesesaal", chs "hL"⟩ [⟨3, chs "Hauptlesesaal", chs "hH"⟩]
    (by decide)).1 (by decide) ⟨3, chs "Hauptlesesaal", chs "hH"⟩ [] (by decide))

/-! ### Lemmas about the Seat Selector -/

lemma firstPreferred_append (links : List SeatLink) (prefs1 prefs2 : List Nat) (p : Nat)
    (lp : SeatLink) (hnone : ∀ q ∈ prefs1, seatByNumber links q = none)
    (hp : seatByNumber links p = some lp) :
    firstPreferred links (prefs1 ++ p :: prefs2) = some lp := by
  induction prefs1 with
  | nil => simp [firstPreferred, hp]
  | cons q qs ih =>
    have hq := hnone q (List.mem_cons_self _ _)
    simp only [List.cons_append, firstPreferred, hq]
    exact ih (fun x hx => hnone x (List.mem_cons_of_mem _ hx))

lemma firstPreferred_none (links : List SeatLink) (prefs : List Nat)
    (h : ∀ q ∈ prefs, seatByNumber links q = none) :
    firstPreferred links prefs = none := by
  induction prefs with
  | nil => rfl
  | cons q qs ih =>
    simp only [firstPreferred, h q (List.mem_cons_self _ _)]
    exact ih (fun x hx => h x (List.mem_cons_of_mem _ hx))

lemma seatByNumber_foldl (n : Nat) (links : List SeatLink) : ∀ acc : Option SeatLink,
    links.foldl (fun acc l =>
      match parseSeatNumber l.desc with
      | some m => if m = n then some l else acc
      | none => acc) acc =
    (links.reverse.find? (fun l => parseSeatNumber l.desc == some n)).or acc := by
  induction links with
  | nil => intro acc; rfl
  | cons x xs ih =>
    intro acc
    rw [List.foldl_cons, ih, List.reverse_cons, List.find?_append, Option.or_assoc]
    congr 1
    cases hp : parseSeatNumber x.desc with
    | none => simp [List.find?_cons, hp]
    | some m =>
      by_cases hm : m = n
      · simp [List.find?_cons, hp, hm]
      · simp [List.find?_cons, hp, hm]

/-! ### Claim theorems for the Seat Selector (C4, C9, C10) -/

/-- C4: the Seat Selector iterates the preference list in order and returns
the candidate registered for the first preferred number present among the
parsed seat numbers; when no preference is present (or the preference list
is empty, a special case of the second part), it returns the first candidate
in document order; and the spec's concrete example — candidates `Platz 3`,
`Platz 7`, `Platz 12` with preferences `[12, 3]` — yields `Platz 12`. -/
theorem c4_seat_preference :
    (∀ (prefs1 prefs2 : List Nat) (p : Nat) (docD : SlotDetailDoc) (lp : SeatLink),
      (containsSub (chs "Reservierung möglich?") docD.text &&
        containsSub (chs "Nein") docD.text) = false →
      (∀ q ∈ prefs1, seatByNumber docD.seatLinks q = none) →
      seatByNumber docD.seatLinks p = some lp →
      select_seat (prefs1 ++ p :: prefs2) docD = Except.ok (lp.href, lp.desc)) ∧
    (∀ (prefs : List Nat) (docD : SlotDetailDoc) (l : SeatLink) (ls : List SeatLink),
      (containsSub (chs "Reservierung möglich?") docD.text &&
        containsSub (chs "Nein") docD.text) = false →
      docD.seatLinks = l :: ls →
      (∀ q ∈ prefs, seatByNumber docD.seatLinks q = none) →
      select_seat prefs docD = Except.ok (l.href, l.desc)) ∧
    (select_seat [12, 3]
      ⟨chs "Reservierungsübersicht",
       [⟨chs "h3", 3, chs "Platz 3"⟩, ⟨chs "h7", 7, chs "Platz 7"⟩,
        ⟨chs "h12", 12, chs "Platz 12"⟩]⟩ =
      Except.ok (chs "h12", chs "Platz 12")) := by
  refine ⟨?_, ?_, by decide⟩
  · intro prefs1 prefs2 p docD lp hguard hnone hp
    have hfp : firstPreferred docD.seatLinks (prefs1 ++ p :: prefs2) = some lp :=
      firstPreferred_append docD.seatLinks prefs1 prefs2 p lp hnone hp
    unfold select_seat
    rw [hguard, if_neg (by simp)]
    cases hl : docD.seatLinks with
    | nil =>
      rw [hl] at hp
      exact absurd hp (by simp [seatByNumber])
    | cons l ls =>
      rw [hl] at hfp
      show (match firstPreferred (l :: ls) (prefs1 ++ p :: prefs2) with
            | some lp2 => Except.ok (lp2.href, lp2.desc)
            | none => Except.ok (l.href, l.desc)) = Except.ok (lp.href, lp.desc)
      rw [hfp]
  · intro prefs docD l ls hguard hl hnone
    have hfp : firstPreferred docD.seatLinks prefs = none :=
      firstPreferred_none docD.seatLinks prefs hnone
    unfold select_seat
    rw [hguard, if_neg (by simp), hl]
    rw [hl] at hfp
    show (match firstPreferred (l :: ls) prefs with
          | some lp2 => Except.ok (lp2.href, lp2.desc)
          | none => Except.ok (l.href, l.desc)) = Except.ok (l.href, l.desc)
    rw [hfp]

/-- C4 witness: the example document with an extra absent preference (1)
prepended: preferences `[1, 12, 3]` select `Platz 12`. -/
theorem c4_witness :
    select_seat ([1] ++ 12 :: [3])
      ⟨chs "Reservierungsübersicht",
       [⟨chs "h3", 3, chs "Platz 3"⟩, ⟨chs "h7", 7, chs "Platz 7"⟩,
        ⟨chs "h12", 12, chs "Platz 12"⟩]⟩ =
      Except.ok (chs "h12", chs "Platz 12") :=
  c4_seat_preference.1 [1] [3] 12
    ⟨chs "Reservierungsübersicht",
     [⟨chs "h3", 3, chs "Platz 3"⟩, ⟨chs "h7", 7, chs "Platz 7"⟩,
      ⟨chs "h12", 12, chs "Platz 12"⟩]⟩
    ⟨chs "h12", 12, chs "Platz 12"⟩ (by decide) (by decide) (by decide)

/-- C9 counterexample: the claim says the selector raises the unavailable
error exactly when the "is reservation possible?" field's value is negative,
and does not raise it when the value is affirmative. In this document the
field reads `"Reservierung möglich? Ja"` (affirmative), but the word
`"Nein"` occurs elsewhere in the text, and the code — which only checks for
the two substrings anywhere in the page — raises the unavailable error
anyway. -/
theorem c9_counterexample :
    containsSub (chs "Reservierung möglich? Ja")
      (chs "Reservierung möglich? Ja (Hinweis: aktuell Nein bei Gruppen)") = true ∧
    select_seat []
      ⟨chs "Reservierung möglich? Ja (Hinweis: aktuell Nein bei Gruppen)",
       [⟨chs "h1", 1, chs "Platz 1"⟩]⟩ =
      Except.error SelectErr.slotUnavailable := by decide

/-- C9 (amended): the Seat Selector fails with the unavailable error exactly
when the slot-detail document's text contains both the substring
`"Reservierung möglich?"` and the substring `"Nein"` anywhere — regardless
of the field's actual value; when at least one substring is absent, this
error is never produced and the selector proceeds to the seat links. -/
theorem c9_unavailable_guard (prefs : List Nat) (docD : SlotDetailDoc) :
    select_seat prefs docD = Except.error SelectErr.slotUnavailable ↔
      (containsSub (chs "Reservierung möglich?") docD.text = true ∧
       containsSub (chs "Nein") docD.text = true) := by
  unfold select_seat
  cases hg : containsSub (chs "Reservierung möglich?") docD.text &&
      containsSub (chs "Nein") docD.text with
  | true =>
    rw [if_pos rfl]
    constructor
    · intro _
      constructor
      · cases hA : containsSub (chs "Reservierung möglich?") docD.text
        · rw [hA] at hg; exact absurd hg (by simp)
        · rfl
      · cases hB : containsSub (chs "Nein") docD.text
        · rw [hB] at hg; exact absurd hg (by simp)
        · rfl
    · intro _; rfl
  | false =>
    rw [if_neg (by simp)]
    apply iff_of_false
    · cases hl : docD.seatLinks with
      | nil =>
        intro h
        exact SelectErr.noConfusion (Except.error.inj h)
      | cons l ls =>
        show ¬((match firstPreferred (l :: ls) prefs with
                | some lp2 => Except.ok (lp2.href, lp2.desc)
                | none => Except.ok (l.href, l.desc)) =
              Except.error SelectErr.slotUnavailable)
        cases firstPreferred (l :: ls) prefs with
        | some lp => intro h; exact Except.noConfusion h
        | none => intro h; exact Except.noConfusion h
    · rintro ⟨hA, hB⟩
      rw [hA, hB] at hg
      exact absurd hg (by simp)

/-- C10 (implicit): the `seat_by_number` dictionary keeps, for each parsed
number, only the candidate occurring last in document order (lookup equals
`find?` over the reversed candidate list), so a preference match on a
duplicated number returns the last such candidate — concretely, two
candidates both labelled `Platz 5` with preference `[5]` select the second
one, not the first. -/
theorem c10_last_candidate_wins :
    (∀ (links : List SeatLink) (n : Nat),
      seatByNumber links n =
        links.reverse.find? (fun l => parseSeatNumber l.desc == some n)) ∧
    (select_seat [5]
      ⟨chs "Sitzplan",
       [⟨chs "hA", 1, chs "Platz 5 (Fenster)"⟩, ⟨chs "hB", 2, chs "Platz 5 (Tür)"⟩]⟩ =
      Except.ok (chs "hB", chs "Platz 5 (Tür)")) := by
  constructor
  · intro links n
    have h := seatByNumber_foldl n links none
    unfold seatByNumber
    rw [h]
    cases links.reverse.find? (fun l => parseSeatNumber l.desc == some n) <;> rfl
  · decide

/-! ### Lemmas about the Retry Orchestrator -/

lemma attemptsLoop_ok {E R : Type} (f : Nat → Except E R) (rem n : Nat) (last : Option E)
    (r : R) (h : f n = Except.ok r) :
    attemptsLoop f (rem + 1) n last = ([BookEvent.attemptEv n], Except.ok r) := by
  unfold attemptsLoop
  rw [h]

lemma attemptsLoop_err_final {E R : Type} (f : Nat → Except E R) (n : Nat)
    (last : Option E) (e : E) (h : f n = Except.error e) :
    attemptsLoop f (0 + 1) n last = ([BookEvent.attemptEv n], Except.error (some e)) := by
  unfold attemptsLoop
  rw [h]
  rfl

lemma attemptsLoop_err_cons {E R : Type} (f : Nat → Except E R) (rem n : Nat)
    (last : Option E) (e : E) (h : f n = Except.error e) (hrem : rem ≠ 0) :
    attemptsLoop f (rem + 1) n last =
      (BookEvent.attemptEv n :: BookEvent.sleepEv ::
        (attemptsLoop f rem (n + 1) (some e)).1,
       (attemptsLoop f rem (n + 1) (some e)).2) := by
  obtain ⟨k, rfl⟩ : ∃ k, rem = k + 1 := ⟨rem - 1, by omega⟩
  unfold attemptsLoop
  rw [h]
  rfl

/-- The predicate picking out attempt events in a trace. -/
def isAttemptEv : BookEvent → Bool
  | BookEvent.attemptEv _ => true
  | _ => false

lemma attemptsLoop_trace {E R : Type} (f : Nat → Except E R) : ∀ (rem n : Nat)
    (last : Option E),
    (attemptsLoop f rem n last).1.countP isAttemptEv ≤ rem ∧
    BookEvent.loginEv ∉ (attemptsLoop f rem n last).1 ∧
    BookEvent.captchaEv ∉ (attemptsLoop f rem n last).1 := by
  intro rem
  induction rem with
  | zero =>
    intro n last
    exact ⟨by simp [attemptsLoop], by simp [attemptsLoop], by simp [attemptsLoop]⟩
  | succ k ih =>
    intro n last
    cases hf : f n with
    | ok r =>
      rw [attemptsLoop_ok f k n last r hf]
      refine ⟨by simp [List.countP_cons, isAttemptEv], by simp, by simp⟩
    | error e =>
      by_cases hk : k = 0
      · subst hk
        rw [attemptsLoop_err_final f n last e hf]
        refine ⟨by simp [List.countP_cons, isAttemptEv], by simp, by simp⟩
      · rw [attemptsLoop_err_cons f k n last e hf hk]
        obtain ⟨hc, hl, hcap⟩ := ih (n + 1) (some e)
        refine ⟨?_, ?_, ?_⟩
        · simp [List.countP_cons, isAttemptEv]
          omega
        · simp [hl]
        · simp [hcap]

/-! ### Claim theorem for the Retry Orchestrator (C2) -/

/-- C2: with `retries = 3`, (1) when the first two attempts fail and the
third succeeds, `execute_booking` returns the third attempt's outcome with
the sleep performed exactly twice; (2) when all three attempts fail, the
error value of the final attempt is re-raised unchanged; (3) for every
attempt behaviour, the trace contains at most 3 attempt events, and login
and captcha handling occur exactly once, at the very front — before the
first attempt. -/
theorem c2_retry_orchestrator {E R : Type} :
    (∀ (f : Nat → Except E R) (e1 e2 : E) (r : R),
      f 1 = Except.error e1 → f 2 = Except.error e2 → f 3 = Except.ok r →
      execute_booking f 3 =
        ([BookEvent.loginEv, BookEvent.captchaEv, BookEvent.attemptEv 1, BookEvent.sleepEv,
          BookEvent.attemptEv 2, BookEvent.sleepEv, BookEvent.attemptEv 3],
         Except.ok r)) ∧
    (∀ (f : Nat → Except E R) (e1 e2 e3 : E),
      f 1 = Except.error e1 → f 2 = Except.error e2 → f 3 = Except.error e3 →
      execute_booking f 3 =
        ([BookEvent.loginEv, BookEvent.captchaEv, BookEvent.attemptEv 1, BookEvent.sleepEv,
          BookEvent.attemptEv 2, BookEvent.sleepEv, BookEvent.attemptEv 3],
         Except.error (some e3))) ∧
    (∀ f : Nat → Except E R,
      (execute_booking f 3).1.countP isAttemptEv ≤ 3 ∧
      ∃ evs, (execute_booking f 3).1 = BookEvent.loginEv :: BookEvent.captchaEv :: evs ∧
        BookEvent.loginEv ∉ evs ∧ BookEvent.captchaEv ∉ evs) := by
  refine ⟨?_, ?_, ?_⟩
  · intro f e1 e2 r h1 h2 h3
    unfold execute_booking
    rw [attemptsLoop_err_cons f 2 1 none e1 h1 (by decide),
      attemptsLoop_err_cons f 1 2 (some e1) e2 h2 (by decide),
      attemptsLoop_ok f 0 3 (some e2) r h3]
  · intro f e1 e2 e3 h1 h2 h3
    unfold execute_booking
    rw [attemptsLoop_err_cons f 2 1 none e1 h1 (by decide),
      attemptsLoop_err_cons f 1 2 (some e1) e2 h2 (by decide),
      attemptsLoop_err_final f 3 (some e2) e3 h3]
  · intro f
    obtain ⟨hc, hl, hcap⟩ := attemptsLoop_trace f 3 1 none
    refine ⟨?_, (attemptsLoop f 3 1 none).1, rfl, hl, hcap⟩
    show (BookEvent.loginEv :: BookEvent.captchaEv ::
      (attemptsLoop f 3 1 none).1).countP isAttemptEv ≤ 3
    simp [List.countP_cons, isAttemptEv]
    omega

/-- C2 witness: attempts 1 and 2 raise the errors 1 and 2, attempt 3
returns 99. -/
theorem c2_witness :
    execute_booking (fun n => if n ≤ 2 then Except.error n else Except.ok 99) 3 =
      ([BookEvent.loginEv, BookEvent.captchaEv, BookEvent.attemptEv 1, BookEvent.sleepEv,
        BookEvent.attemptEv 2, BookEvent.sleepEv, BookEvent.attemptEv 3],
       Except.ok 99) :=
  (c2_retry_orchestrator (E := Nat) (R := Nat)).1
    (fun n => if n ≤ 2 then Except.error n else Except.ok 99) 1 2 99 rfl rfl rfl

/-! ### Lemmas about the captcha loop -/

lemma captchaLoop_short (env : AuthEnv) (html : Page) (img : List Char) (fc rem : Nat)
    (hI : html.captchaImage = some img) (hlen : (env.solve img).length < 4) :
    captchaLoop env html fc (rem + 1) =
      (AuthEvent.fetchBase :: (captchaLoop env (env.getBase fc) (fc + 1) rem).1,
       (captchaLoop env (env.getBase fc) (fc + 1) rem).2) := by
  conv_lhs => unfold captchaLoop
  rw [hI]
  show (if (env.solve img).length < 4 then _ else _) = _
  rw [if_pos hlen]

lemma captchaLoop_all_short (env : AuthEnv)
    (hbase : ∀ k, (env.getBase k).captchaImage.isSome)
    (hshort : ∀ img, (env.solve img).length < 4) :
    ∀ (rem : Nat) (html : Page) (fc : Nat), html.captchaImage.isSome →
      captchaLoop env html fc rem =
        (List.replicate rem AuthEvent.fetchBase, Except.error CaptchaErr.exhausted) := by
  intro rem
  induction rem with
  | zero => intro html fc _; rfl
  | succ k ih =>
    intro html fc hH
    obtain ⟨img, hI⟩ := Option.isSome_iff_exists.mp hH
    rw [captchaLoop_short env html img fc k hI (hshort img),
      ih (env.getBase fc) (fc + 1) (hbase fc)]
    rfl

/-! ### Claim theorem for the captcha loop (C8) -/

/-- C8: whenever the OCR result for the current document's captcha image has
length below 4, the loop iteration submits no confirmation form: its only
event is a re-fetch of the base page, after which the loop continues with
the freshly fetched document and one fewer remaining attempt (the event
counts toward `MAX_CAPTCHA_RETRIES`). Consequently, when every OCR result is
short and every page carries a captcha image, the whole loop performs
exactly `maxRetries` re-fetches, never submits, and exhausts with the
max-retries error. -/
theorem c8_short_ocr_refetch :
    (∀ (env : AuthEnv) (html : Page) (img : List Char) (fc rem : Nat),
      html.captchaImage = some img →
      (env.solve img).length < 4 →
      captchaLoop env html fc (rem + 1) =
        (AuthEvent.fetchBase :: (captchaLoop env (env.getBase fc) (fc + 1) rem).1,
         (captchaLoop env (env.getBase fc) (fc + 1) rem).2)) ∧
    (∀ (env : AuthEnv) (html : Page) (maxRetries : Nat),
      html.captchaImage.isSome →
      (∀ k, (env.getBase k).captchaImage.isSome) →
      (∀ img, (env.solve img).length < 4) →
      handle_captcha env maxRetries html =
        (List.replicate maxRetries AuthEvent.fetchBase,
         Except.error CaptchaErr.exhausted)) := by
  constructor
  · intro env html img fc rem hI hlen
    exact captchaLoop_short env html img fc rem hI hlen
  · intro env html maxRetries hH hbase hshort
    exact captchaLoop_all_short env hbase hshort maxRetries html 0 hH

/-- C8 witness: an environment whose OCR always answers `"ab"` (length 2)
and whose pages always carry a captcha image, with 2 allowed attempts:
two re-fetches, no submission, exhaustion. -/
theorem c8_witness :
    handle_captcha
      ⟨fun _ => chs "ab",
       fun _ => ⟨some (chs "img"), false, none, false, none, false, none⟩,
       fun _ => ⟨some (chs "img"), false, none, false, none, false, none⟩,
       fun _ _ => ⟨some (chs "img"), false, none, false, none, false, none⟩⟩ 2
      ⟨some (chs "img"), false, none, false, none, false, none⟩ =
      ([AuthEvent.fetchBase, AuthEvent.fetchBase], Except.error CaptchaErr.exhausted) :=
  c8_short_ocr_refetch.2
    ⟨fun _ => chs "ab",
     fun _ => ⟨some (chs "img"), false, none, false, none, false, none⟩,
     fun _ => ⟨some (chs "img"), false, none, false, none, false, none⟩,
     fun _ _ => ⟨some (chs "img"), false, none, false, none, false, none⟩⟩
    ⟨some (chs "img"), false, none, false, none, false, none⟩ 2
    rfl (fun _ => rfl) (fun _ => by show (chs "ab").length < 4; decide)

end ULBSeat
